import Mathlib

/-!
Verification of the DealSense job-orchestration and event-streaming core.

The definitions below are a shallow embedding of the code in
`api/routes/deals.py`, `api/routes/websocket_handler.py` and
`api/models/schemas.py`:

* the job registry is the module-level dict `active_jobs`, embedded as an
  association list `JobTable` inside a state `Sys` that also carries a
  monotone clock standing for `datetime.now()`;
* `validate_categories_logic`, `table_for`, `run_deal_search_sync`,
  `start_deal_search`, `get_search_results`, `cancel_job` and
  `clear_all_results` are translated line by line;
* `ConnectionManager.broadcast` is embedded over an explicit list of
  connection records carrying the client state and whether `send_text`
  succeeds;
* the `log_queue` plus `process_log_queue` consumer loop is embedded as a
  small transition system over a queue state.

Monetary amounts are embedded as integer cents; the float formatting
`f"$ x :.2f"` of the source becomes `fmt2`, which is only relevant to the
shape of result rows, never to any numeric claim.
-/

namespace DealSense

/-- Embedded `DealData` / the `opp.deal` object: description, price, url. -/
structure Deal where
  product_description : String
  price : Int
  url : String
deriving DecidableEq, Repr

/-- Embedded `OpportunityData` / the pipeline `Opportunity`: a deal plus the
estimate and discount computed by the pricing pipeline. -/
structure Opportunity where
  deal : Deal
  estimate : Int
  discount : Int
deriving DecidableEq, Repr

/-- Two-decimal rendering of an amount in cents, standing for the Python
format `:.2f` applied to a float number of dollars. -/
def fmt2 (cents : Int) : String :=
  let sign := if cents < 0 then "-" else ""
  let a := cents.natAbs
  sign ++ toString (a / 100) ++ "." ++ (if a % 100 < 10 then "0" else "") ++ toString (a % 100)

/-- Embeds `table_for` from `deals.py`: one five-column row per opportunity,
the last column being the anchor markup built from the deal url. -/
def table_for (opps : List Opportunity) : List (List String) :=
  opps.map (fun opp =>
    [opp.deal.product_description,
     "$" ++ fmt2 opp.deal.price,
     "$" ++ fmt2 opp.estimate,
     "$" ++ fmt2 opp.discount,
     "<a href=\"" ++ opp.deal.url ++ "\" target=\"_blank\">View Deal</a>"])

/-- Embeds `validate_categories_logic` from `deals.py`: returns a warning
string when the selection is empty or has more than three entries, `none`
when the selection is accepted. -/
def validate_categories_logic (selected_categories : List String) : Option String :=
  if selected_categories.length = 0 then
    some "Please select at least one category before running."
  else if selected_categories.length > 3 then
    some "You can select up to 3 categories only."
  else
    none

/-- Embeds the pydantic validator on `CategoryRequest.selected_categories`
in `schemas.py`: raises (returns `.error`) on an empty selection or more
than three entries, otherwise returns the list unchanged. -/
def CategoryRequest.validate_categories (v : List String) : Except String (List String) :=
  if v.length = 0 then .error "Please select at least one category before running."
  else if v.length > 3 then .error "You can select up to 3 categories only."
  else .ok v

/-- Embedded job record: the per-job dict stored in `active_jobs`. Keys that
the code adds only later (`start_time`, `end_time`, `total_count`) are
`Option` fields defaulting to `none`; `results` and `error` are present from
creation. Timestamps are clock values of `Sys`. -/
structure Job where
  status : String
  selected_categories : List String
  created_at : Nat
  results : List (List String)
  error : Option String
  start_time : Option Nat := none
  end_time : Option Nat := none
  total_count : Option Nat := none
deriving DecidableEq, Repr

/-- The `active_jobs` dict: an association list from job id to record,
in insertion order, keys unique (ids are uuid4 values). -/
abbrev JobTable := List (String × Job)

/-- Dict lookup: the value at the first matching key. -/
def findJob (table : JobTable) (id : String) : Option Job :=
  match table with
  | [] => none
  | p :: rest => if p.1 = id then some p.2 else findJob rest id

/-- Dict update of an existing key: rewrite the value at every entry whose
key matches, leave all other entries untouched. -/
def updateJob (table : JobTable) (id : String) (f : Job → Job) : JobTable :=
  table.map (fun p => if p.1 = id then (p.1, f p.2) else p)

/-- Dict assignment `active_jobs[id] = j`: overwrite in place when the key
exists, append otherwise. -/
def setJob (table : JobTable) (id : String) (j : Job) : JobTable :=
  if (findJob table id).isSome then updateJob table id (fun _ => j)
  else table ++ [(id, j)]

/-- Whole-registry state: the `active_jobs` dict plus a clock standing for
`datetime.now()`, which ticks forward at every reading. -/
structure Sys where
  active_jobs : JobTable
  clock : Nat
deriving DecidableEq, Repr

/-- Reads the clock (`datetime.now()`) and advances it. -/
def tick (s : Sys) : Nat × Sys := (s.clock, { s with clock := s.clock + 1 })

/-- Embedded `SearchResponse` schema. -/
structure SearchResponse where
  job_id : String
  status : String
  message : Option String
deriving DecidableEq, Repr

/-- Embedded `SearchResultsResponse` schema. -/
structure SearchResultsResponse where
  status : String
  results : List (List String)
  error_message : Option String
  total_count : Nat
deriving DecidableEq, Repr

/-- Embeds the first half of `run_deal_search_sync` (before
`deal_framework.run` is invoked): set the status to running and record
`start_time = datetime.now()`. -/
def workerStart (job_id : String) (s : Sys) : Sys :=
  let (t1, s1) := tick s
  let table := updateJob s1.active_jobs job_id
    (fun j => { j with status := "running", start_time := some t1 })
  { s1 with active_jobs := table }

/-- Embeds the second half of `run_deal_search_sync`: the outcome of the
black-box `deal_framework.run` call is either a list of opportunities or an
exception message. On success the job gets status completed, the formatted
table, the count and `end_time`; on exception the except branch of the
source sets only the status and the error string. -/
def workerFinish (job_id : String) (outcome : Except String (List Opportunity)) (s : Sys) : Sys :=
  match outcome with
  | .ok new_opportunities =>
      let table_data := table_for new_opportunities
      let (t2, s3) := tick s
      let table := updateJob s3.active_jobs job_id (fun j =>
        { j with status := "completed", results := table_data,
                 total_count := some new_opportunities.length, end_time := some t2 })
      { s3 with active_jobs := table }
  | .error e =>
      let table := updateJob s.active_jobs job_id (fun j =>
        { j with status := "error", error := some e })
      { s with active_jobs := table }

/-- Embeds `run_deal_search_sync` in full: the start phase followed by the
finish phase for the given outcome of the black-box work. -/
def run_deal_search_sync (job_id : String) (outcome : Except String (List Opportunity))
    (s : Sys) : Sys :=
  workerFinish job_id outcome (workerStart job_id s)

/-- Embeds the `POST /search` handler `start_deal_search`: validate the
selection; on a validation error raise (return `.error`) before any job is
created; otherwise insert a fresh job record in status initializing with
`created_at = datetime.now()` and answer with status started. `job_id`
stands for the generated `uuid4` value. -/
def start_deal_search (selected_categories : List String) (job_id : String) (s : Sys) :
    Sys × Except String SearchResponse :=
  match validate_categories_logic selected_categories with
  | some validation_error => (s, .error validation_error)
  | none =>
      let (t0, s1) := tick s
      let job : Job := { status := "initializing", selected_categories := selected_categories,
                         created_at := t0, results := [], error := none }
      ({ s1 with active_jobs := setJob s1.active_jobs job_id job },
       .ok { job_id := job_id, status := "started",
             message := some "Deal search initiated successfully" })

/-- Embeds the `GET /results/job_id` handler: 404 (`none`) for an unknown
id, otherwise the status, results, stored error and `total_count` with the
dict-get default 0. -/
def get_search_results (s : Sys) (job_id : String) : Option SearchResultsResponse :=
  match findJob s.active_jobs job_id with
  | none => none
  | some job => some { status := job.status, results := job.results,
                       error_message := job.error, total_count := job.total_count.getD 0 }

/-- Result of the `DELETE /jobs/job_id` handler: 404, or the message body. -/
inductive CancelResult
  | notFound
  | message (msg : String)
deriving DecidableEq, Repr

/-- Embeds `cancel_job`: 404 for an unknown id; for a running job set the
status to cancelled and answer with a success message; for any other status
leave the record untouched and answer with a message naming the actual
status. -/
def cancel_job (s : Sys) (job_id : String) : Sys × CancelResult :=
  match findJob s.active_jobs job_id with
  | none => (s, .notFound)
  | some job =>
      if job.status = "running" then
        let table := updateJob s.active_jobs job_id (fun j => { j with status := "cancelled" })
        ({ s with active_jobs := table },
         .message ("Job " ++ job_id ++ " cancelled successfully"))
      else
        (s, .message ("Job " ++ job_id ++ " is not running (status: " ++ job.status ++ ")"))

/-- The three terminal statuses listed in `clear_all_results`. -/
def terminalStatuses : List String := ["completed", "error", "cancelled"]

/-- Embeds `clear_all_results`: collect the ids of the jobs whose status is
in the terminal list, delete each of them from the dict, report how many
were deleted. -/
def clear_all_results (s : Sys) : Sys × Nat :=
  let completed_jobs :=
    (s.active_jobs.filter (fun p => terminalStatuses.contains p.2.status)).map Prod.fst
  let table := completed_jobs.foldl (fun t id => t.filter (fun p => p.1 != id)) s.active_jobs
  ({ s with active_jobs := table }, completed_jobs.length)

/-- One registry-touching operation, for stating transition properties:
a submission with a generated id, the two phases of a worker run, an
advisory cancel, and the bulk clear. -/
inductive Op
  | submit (job_id : String) (selected_categories : List String)
  | workerStartOp (job_id : String)
  | workerFinishOp (job_id : String) (outcome : Except String (List Opportunity))
  | cancel (job_id : String)
  | clear

/-- Applies one operation to the registry state. -/
def applyOp (op : Op) (s : Sys) : Sys :=
  match op with
  | .submit id cats => (start_deal_search cats id s).1
  | .workerStartOp id => workerStart id s
  | .workerFinishOp id outcome => workerFinish id outcome s
  | .cancel id => (cancel_job s id).1
  | .clear => (clear_all_results s).1

/-- One observer connection as seen by `ConnectionManager.broadcast`: an
identity, whether `client_state == WebSocketState.CONNECTED`, and whether a
`send_text` to it would succeed. -/
structure Conn where
  id : Nat
  client_state_connected : Bool
  send_ok : Bool
deriving DecidableEq, Repr

/-- Result of one `broadcast` call: the connections the message reached, the
connections a `send_text` was attempted on, and `active_connections` after
the pruning pass. -/
structure BroadcastResult where
  delivered : List Conn
  attempted : List Conn
  active : List Conn
deriving DecidableEq, Repr

/-- The loop body of `ConnectionManager.broadcast` over the iterated
connections: a connected one gets a `send_text` attempt, which delivers on
success and lands the connection in the `disconnected` set on exception; a
non-connected one is put in `disconnected` straight away with no attempt.
Returns (delivered, attempted, disconnected), each in iteration order. -/
def broadcastScan (conns : List Conn) : List Conn × List Conn × List Conn :=
  match conns with
  | [] => ([], [], [])
  | c :: rest =>
      let (d, a, disc) := broadcastScan rest
      if c.client_state_connected then
        if c.send_ok then (c :: d, c :: a, disc)
        else (d, c :: a, c :: disc)
      else (d, a, c :: disc)

/-- Embeds `ConnectionManager.broadcast`: run the loop over the current
connections, then remove every member of the `disconnected` set from
`active_connections` (the code calls `self.disconnect` on each). -/
def broadcast (conns : List Conn) : BroadcastResult :=
  let scan := broadcastScan conns
  { delivered := scan.1, attempted := scan.2.1,
    active := conns.filter (fun c => !(scan.2.2.contains c)) }

/-- State of the `EventBridge` embedding: `log_queue` is the FIFO
`queue.Queue` (front at the head), `broadcasted` the messages handed to
`broadcast` so far in order, and `enqueued` a ghost trace of every message
ever put, in the global order the puts completed. -/
structure BridgeState where
  log_queue : List String
  broadcasted : List String
  enqueued : List String
deriving DecidableEq, Repr

/-- The empty bridge: fresh queue, nothing broadcast. -/
def bridgeInit : BridgeState := { log_queue := [], broadcasted := [], enqueued := [] }

/-- One step of the bridge: a producer thread completing a
`log_queue.put(msg)` (appending at the back), or one iteration of
`process_log_queue` (when the queue is non-empty, `get_nowait` pops the
front element and it is broadcast before the loop re-checks; when it is
empty the loop merely sleeps). -/
inductive BridgeOp
  | put (msg : String)
  | consume

/-- Applies one bridge step. -/
def applyBridgeOp (op : BridgeOp) (s : BridgeState) : BridgeState :=
  match op with
  | .put msg => { s with log_queue := s.log_queue ++ [msg], enqueued := s.enqueued ++ [msg] }
  | .consume =>
      match s.log_queue with
      | [] => s
      | msg :: rest => { s with log_queue := rest, broadcasted := s.broadcasted ++ [msg] }

/-- Runs an interleaving of producer puts and consumer iterations from the
empty bridge. -/
def runBridge (ops : List BridgeOp) : BridgeState :=
  ops.foldl (fun s op => applyBridgeOp op s) bridgeInit

/-- Sample record of a job that has completed, for concrete instantiation. -/
def sampleCompletedJob : Job :=
  { status := "completed", selected_categories := ["Electronics"], created_at := 0,
    results := [["d", "$1.00", "$2.00", "$1.00", "link"]], error := none,
    start_time := some 1, end_time := some 2, total_count := some 1 }

/-- Sample record of a job that is still running, for concrete instantiation. -/
def sampleRunningJob : Job :=
  { status := "running", selected_categories := ["Electronics"], created_at := 0,
    results := [], error := none, start_time := some 1 }

/-- Sample record of a freshly created job, for concrete instantiation. -/
def sampleInitJob : Job :=
  { status := "initializing", selected_categories := ["Electronics"], created_at := 0,
    results := [], error := none }

/-! Helper lemmas about the dict embedding. -/

theorem findJob_cons (p : String × Job) (rest : JobTable) (id : String) :
    findJob (p :: rest) id = if p.1 = id then some p.2 else findJob rest id := rfl

theorem findJob_append_of_none {t1 : JobTable} {id : String} (t2 : JobTable)
    (h : findJob t1 id = none) : findJob (t1 ++ t2) id = findJob t2 id := by
  induction t1 with
  | nil => rfl
  | cons p rest ih =>
      rw [findJob_cons] at h
      by_cases hp : p.1 = id
      · simp [hp] at h
      · simpa [findJob_cons, hp] using ih (by simpa [hp] using h)

theorem findJob_updateJob_eq (t : JobTable) (id : String) (f : Job → Job) :
    findJob (updateJob t id f) id = (findJob t id).map f := by
  induction t with
  | nil => rfl
  | cons p rest ih =>
      by_cases hp : p.1 = id
      · simp [updateJob, findJob_cons, hp]
      · simpa [updateJob, findJob_cons, hp] using ih

theorem updateJob_cons (p : String × Job) (rest : JobTable) (id : String) (f : Job → Job) :
    updateJob (p :: rest) id f
      = (if p.1 = id then (p.1, f p.2) else p) :: updateJob rest id f := rfl

theorem findJob_updateJob_ne (t : JobTable) {id id' : String} (f : Job → Job)
    (h : id' ≠ id) : findJob (updateJob t id' f) id = findJob t id := by
  induction t with
  | nil => rfl
  | cons p rest ih =>
      by_cases hp : p.1 = id'
      · simp [updateJob_cons, findJob_cons, hp, h, ih]
      · simp [updateJob_cons, findJob_cons, hp, ih]

theorem findJob_setJob_self (t : JobTable) (id : String) (j : Job) :
    findJob (setJob t id j) id = some j := by
  unfold setJob
  by_cases hs : (findJob t id).isSome
  · rw [if_pos hs, findJob_updateJob_eq]
    obtain ⟨j0, hj0⟩ := Option.isSome_iff_exists.mp hs
    rw [hj0]; rfl
  · rw [if_neg hs]
    rw [findJob_append_of_none _ (Option.not_isSome_iff_eq_none.mp hs)]
    simp [findJob_cons]

theorem findJob_setJob_ne (t : JobTable) {id id' : String} (j : Job)
    (h : id' ≠ id) : findJob (setJob t id' j) id = findJob t id := by
  unfold setJob
  by_cases hs : (findJob t id').isSome
  · rw [if_pos hs, findJob_updateJob_ne t _ h]
  · rw [if_neg hs]
    induction t with
    | nil => simp [findJob_cons, h]
    | cons p rest ih =>
        rw [findJob_cons] at hs ⊢
        by_cases hp : p.1 = id'
        · simp [hp] at hs
        · by_cases hq : p.1 = id
          · simp [List.cons_append, findJob_cons, hq]
          · simpa [List.cons_append, findJob_cons, hq, hp] using ih (by simpa [hp] using hs)

theorem foldl_delete_eq_filter (ids : List String) (t : JobTable) :
    ids.foldl (fun t id => t.filter (fun p => p.1 != id)) t
      = t.filter (fun p => !(ids.contains p.1)) := by
  induction ids generalizing t with
  | nil => simp
  | cons id rest ih =>
      rw [List.foldl_cons, ih, List.filter_filter]
      apply List.filter_congr
      intro p _
      by_cases hp : p.1 = id <;> simp [hp, List.contains_cons]

theorem broadcastScan_delivered (conns : List Conn) :
    (broadcastScan conns).1 = conns.filter (fun c => c.client_state_connected && c.send_ok) := by
  induction conns with
  | nil => rfl
  | cons c rest ih =>
      by_cases h1 : c.client_state_connected = true
      · by_cases h2 : c.send_ok = true
        · simp [broadcastScan, h1, h2, List.filter_cons, ih]
        · simp [broadcastScan, h1, h2, List.filter_cons, ih]
      · simp [broadcastScan, h1, List.filter_cons, ih]

theorem broadcastScan_attempted (conns : List Conn) :
    (broadcastScan conns).2.1 = conns.filter (fun c => c.client_state_connected) := by
  induction conns with
  | nil => rfl
  | cons c rest ih =>
      by_cases h1 : c.client_state_connected = true
      · by_cases h2 : c.send_ok = true
        · simp [broadcastScan, h1, h2, List.filter_cons, ih]
        · simp [broadcastScan, h1, h2, List.filter_cons, ih]
      · simp [broadcastScan, h1, List.filter_cons, ih]

theorem broadcastScan_disconnected (conns : List Conn) :
    (broadcastScan conns).2.2
      = conns.filter (fun c => !(c.client_state_connected && c.send_ok)) := by
  induction conns with
  | nil => rfl
  | cons c rest ih =>
      by_cases h1 : c.client_state_connected = true
      · by_cases h2 : c.send_ok = true
        · simp [broadcastScan, h1, h2, List.filter_cons, ih]
        · simp [broadcastScan, h1, h2, List.filter_cons, ih]
      · simp [broadcastScan, h1, List.filter_cons, ih]

theorem broadcast_delivered_eq (conns : List Conn) :
    (broadcast conns).delivered
      = conns.filter (fun c => c.client_state_connected && c.send_ok) := by
  simp only [broadcast]
  rw [broadcastScan_delivered conns]

theorem broadcast_attempted_eq (conns : List Conn) :
    (broadcast conns).attempted = conns.filter (fun c => c.client_state_connected) := by
  simp only [broadcast]
  rw [broadcastScan_attempted conns]

theorem broadcast_active_eq (conns : List Conn) :
    (broadcast conns).active
      = conns.filter (fun c =>
          !((conns.filter (fun d => !(d.client_state_connected && d.send_ok))).contains c)) := by
  simp only [broadcast]
  rw [broadcastScan_disconnected conns]

theorem start_deal_search_ok {cats : List String}
    (hvalid : validate_categories_logic cats = none) (id : String) (s : Sys) :
    (start_deal_search cats id s).1
        = { active_jobs :=
              setJob s.active_jobs id { status := "initializing",
                                        selected_categories := cats,
                                        created_at := s.clock, results := [], error := none },
            clock := s.clock + 1 } ∧
    (start_deal_search cats id s).2
        = .ok { job_id := id, status := "started",
                message := some "Deal search initiated successfully" } := by
  unfold start_deal_search tick
  rw [hvalid]
  exact ⟨rfl, rfl⟩

theorem run_deal_search_sync_error {t : JobTable} {id : String} {j : Job}
    (h : findJob t id = some j) (m : String) (c : Nat) :
    findJob (run_deal_search_sync id (.error m)
        { active_jobs := t, clock := c }).active_jobs id
      = some { j with status := "error", error := some m, start_time := some c } := by
  unfold run_deal_search_sync workerFinish workerStart tick
  simp [findJob_updateJob_eq, h]

theorem run_deal_search_sync_ok {t : JobTable} {id : String} {j : Job}
    (h : findJob t id = some j) (opps : List Opportunity) (c : Nat) :
    findJob (run_deal_search_sync id (.ok opps)
        { active_jobs := t, clock := c }).active_jobs id
      = some { j with status := "completed", results := table_for opps,
                      total_count := some opps.length, start_time := some c,
                      end_time := some (c + 1) } := by
  unfold run_deal_search_sync workerFinish workerStart tick
  simp [findJob_updateJob_eq, h]

theorem bridge_inv_applyOp (op : BridgeOp) (s : BridgeState)
    (h : s.enqueued = s.broadcasted ++ s.log_queue) :
    (applyBridgeOp op s).enqueued
      = (applyBridgeOp op s).broadcasted ++ (applyBridgeOp op s).log_queue := by
  cases op with
  | put msg => simp [applyBridgeOp, h]
  | consume =>
      cases hq : s.log_queue with
      | nil => simpa [applyBridgeOp, hq] using h
      | cons msg rest => simp [applyBridgeOp, hq, h, hq ▸ h]

theorem bridge_inv_foldl (ops : List BridgeOp) (s : BridgeState)
    (h : s.enqueued = s.broadcasted ++ s.log_queue) :
    (ops.foldl (fun s op => applyBridgeOp op s) s).enqueued
      = (ops.foldl (fun s op => applyBridgeOp op s) s).broadcasted
        ++ (ops.foldl (fun s op => applyBridgeOp op s) s).log_queue := by
  induction ops generalizing s with
  | nil => simpa using h
  | cons op rest ih => exact ih _ (bridge_inv_applyOp op s h)

theorem key_mem_terminal_ids {t : JobTable} {id : String} {j : Job}
    (hj : findJob t id = some j)
    (hterm : terminalStatuses.contains j.status = true) :
    ((t.filter (fun p => terminalStatuses.contains p.2.status)).map Prod.fst).contains id
      = true := by
  induction t with
  | nil => simp [findJob] at hj
  | cons p rest ih =>
      rw [findJob_cons] at hj
      by_cases hp : p.1 = id
      · rw [if_pos hp] at hj
        have hj2 : p.2 = j := by injection hj
        rw [List.filter_cons, hj2, hterm]
        simp [hp]
      · rw [if_neg hp] at hj
        rw [List.filter_cons]
        by_cases ht : p.2.status ∈ terminalStatuses
        · have hrest := ih hj
          simp at hrest
          simp [ht]
          exact Or.inr hrest
        · have hrest := ih hj
          simp at hrest
          simp [ht]
          exact hrest

theorem findJob_filter_key_removed {t : JobTable} {ids : List String} {id : String}
    (h : ids.contains id = true) :
    findJob (t.filter (fun p => !(ids.contains p.1))) id = none := by
  induction t with
  | nil => rfl
  | cons p rest ih =>
      rw [List.filter_cons]
      have h2 : id ∈ ids := by simpa using h
      have ih2 : findJob (rest.filter (fun p => !decide (p.1 ∈ ids))) id = none := by
        simpa using ih
      by_cases hk : p.1 ∈ ids
      · simp [hk, ih2]
      · have hne : p.1 ≠ id := fun he => hk (he ▸ h2)
        simp [hk, findJob_cons, hne, ih2]

theorem clear_all_results_table (s : Sys)
    (hnd : (s.active_jobs.map Prod.fst).Nodup) :
    (clear_all_results s).1.active_jobs
      = s.active_jobs.filter (fun p => !(terminalStatuses.contains p.2.status)) := by
  unfold clear_all_results
  dsimp only
  rw [foldl_delete_eq_filter]
  apply List.filter_congr
  intro p hp
  have hkey : ((s.active_jobs.filter
        (fun q => terminalStatuses.contains q.2.status)).map Prod.fst).contains p.1
      = terminalStatuses.contains p.2.status := by
    by_cases ht : terminalStatuses.contains p.2.status = true
    · rw [ht]
      have hpf : p ∈ s.active_jobs.filter (fun q => terminalStatuses.contains q.2.status) :=
        List.mem_filter.mpr ⟨hp, ht⟩
      have hmem : p.1 ∈ (s.active_jobs.filter
          (fun q => terminalStatuses.contains q.2.status)).map Prod.fst :=
        List.mem_map.mpr ⟨p, hpf, rfl⟩
      simpa using hmem
    · simp only [Bool.not_eq_true] at ht
      rw [ht]
      apply Bool.eq_false_iff.mpr
      intro hc
      have hmem : p.1 ∈ (s.active_jobs.filter
          (fun q => terminalStatuses.contains q.2.status)).map Prod.fst := by
        simpa using hc
      obtain ⟨q, hqf, hq1⟩ := List.mem_map.mp hmem
      have hqmem := (List.mem_filter.mp hqf).1
      have hqterm := (List.mem_filter.mp hqf).2
      have hqp : q = p := List.inj_on_of_nodup_map hnd hqmem hp hq1
      rw [hqp] at hqterm
      have ht2 : ¬ (p.2.status ∈ terminalStatuses) := by simpa using ht
      exact ht2 (by simpa using hqterm)
  rw [hkey]

theorem mem_iff_contains {α : Type} [BEq α] [LawfulBEq α] {l : List α} {a : α} :
    l.contains a = true ↔ a ∈ l := List.elem_iff

/-! Claim theorems. -/

/-- C4: `clear_all_results` removes exactly the jobs whose status is in
completed, error, cancelled: the count it reports is the number of terminal
jobs, the surviving table is precisely the non-terminal entries verbatim and
in order (so every initializing or running job is untouched), the clock is
untouched, and an immediate second call removes 0. Stated under the dict
invariant that job ids are unique keys. -/
theorem clearTerminal_removes_exactly_terminal (s : Sys)
    (hnd : (s.active_jobs.map Prod.fst).Nodup) :
    (clear_all_results s).2
        = (s.active_jobs.filter (fun p => terminalStatuses.contains p.2.status)).length ∧
    (clear_all_results s).1.active_jobs
        = s.active_jobs.filter (fun p => !(terminalStatuses.contains p.2.status)) ∧
    (clear_all_results s).1.clock = s.clock ∧
    (clear_all_results (clear_all_results s).1).2 = 0 := by
  have htab := clear_all_results_table s hnd
  refine ⟨?_, htab, rfl, ?_⟩
  · unfold clear_all_results
    simp
  · generalize hgen : (clear_all_results s).1 = s2 at htab
    unfold clear_all_results
    dsimp only
    rw [htab, List.filter_filter]
    simp

/-- Witness for C4 at a concrete two-job table: one completed, one running. -/
theorem clearTerminal_removes_exactly_terminal_witness :
    (clear_all_results { active_jobs := [("a", sampleCompletedJob), ("b", sampleRunningJob)],
                         clock := 5 }).2
        = ((([("a", sampleCompletedJob), ("b", sampleRunningJob)] : JobTable).filter
              (fun p => terminalStatuses.contains p.2.status)).length) ∧
    (clear_all_results (clear_all_results { active_jobs :=
        [("a", sampleCompletedJob), ("b", sampleRunningJob)], clock := 5 }).1).2 = 0 :=
  ⟨(clearTerminal_removes_exactly_terminal _ (by decide)).1,
   (clearTerminal_removes_exactly_terminal _ (by decide)).2.2.2⟩

/-- C5: `cancel_job` on an unknown id answers 404 and modifies nothing; on a
known running job it sets the status to cancelled, answers with the success
message and touches no other job and not the clock; on a known job in any
other status it leaves the whole state unchanged and answers with a message
reporting the actual status of the job. -/
theorem cancel_job_spec (s : Sys) (id : String) :
    (findJob s.active_jobs id = none → cancel_job s id = (s, CancelResult.notFound)) ∧
    (∀ j, findJob s.active_jobs id = some j → j.status = "running" →
      (cancel_job s id).2 = CancelResult.message ("Job " ++ id ++ " cancelled successfully") ∧
      findJob (cancel_job s id).1.active_jobs id = some { j with status := "cancelled" } ∧
      (cancel_job s id).1.clock = s.clock ∧
      (∀ id2, id2 ≠ id →
        findJob (cancel_job s id).1.active_jobs id2 = findJob s.active_jobs id2)) ∧
    (∀ j, findJob s.active_jobs id = some j → j.status ≠ "running" →
      cancel_job s id
        = (s, CancelResult.message
            ("Job " ++ id ++ " is not running (status: " ++ j.status ++ ")"))) := by
  refine ⟨?_, ?_, ?_⟩
  · intro h
    unfold cancel_job
    rw [h]
  · intro j hj hrun
    unfold cancel_job
    rw [hj]
    dsimp only
    rw [if_pos hrun]
    refine ⟨rfl, ?_, rfl, ?_⟩
    · dsimp only
      rw [findJob_updateJob_eq, hj]
      rfl
    · intro id2 hne
      dsimp only
      exact findJob_updateJob_ne _ _ (Ne.symm hne)
  · intro j hj hrun
    unfold cancel_job
    rw [hj]
    dsimp only
    rw [if_neg hrun]

/-- Witness for C5: a running job gets cancelled with the success message,
and a completed job is left alone with a message naming its status. -/
theorem cancel_job_spec_witness :
    (cancel_job { active_jobs := [("r", sampleRunningJob)], clock := 9 } "r").2
        = CancelResult.message ("Job " ++ "r" ++ " cancelled successfully") ∧
    cancel_job { active_jobs := [("c", sampleCompletedJob)], clock := 9 } "c"
        = ({ active_jobs := [("c", sampleCompletedJob)], clock := 9 },
           CancelResult.message ("Job " ++ "c" ++ " is not running (status: "
             ++ sampleCompletedJob.status ++ ")")) :=
  ⟨((cancel_job_spec { active_jobs := [("r", sampleRunningJob)], clock := 9 } "r").2.1
      sampleRunningJob (by decide) (by decide)).1,
   (cancel_job_spec { active_jobs := [("c", sampleCompletedJob)], clock := 9 } "c").2.2
      sampleCompletedJob (by decide) (by decide)⟩

/-- C6: `start_deal_search` rejects with a validation error exactly when the
number of selected categories is 0 or exceeds 3, and on rejection the whole
state, job table included, is unchanged; for 1 to 3 categories it answers
ok with the generated id and status started, and the table now maps that id
to a job in status initializing. -/
theorem submit_validation_spec (cats : List String) (id : String) (s : Sys) :
    ((∃ msg, (start_deal_search cats id s).2 = Except.error msg)
        ↔ cats.length = 0 ∨ 3 < cats.length) ∧
    ((cats.length = 0 ∨ 3 < cats.length) → (start_deal_search cats id s).1 = s) ∧
    (1 ≤ cats.length → cats.length ≤ 3 →
      (start_deal_search cats id s).2
          = Except.ok { job_id := id, status := "started",
                        message := some "Deal search initiated successfully" } ∧
      findJob (start_deal_search cats id s).1.active_jobs id
          = some { status := "initializing", selected_categories := cats,
                   created_at := s.clock, results := [], error := none }) := by
  unfold start_deal_search validate_categories_logic tick
  by_cases h0 : cats.length = 0
  · simp [h0]
  · by_cases h3 : cats.length > 3
    · simp [h0, h3]
    · simp [h0, h3, findJob_setJob_self]

/-- Witness for C6: the empty selection is rejected leaving the state as it
was, and a one-category selection creates an initializing job. -/
theorem submit_validation_spec_witness :
    (start_deal_search [] "a" { active_jobs := [], clock := 0 }).1
        = { active_jobs := [], clock := 0 } ∧
    findJob (start_deal_search ["Electronics"] "a"
        { active_jobs := [], clock := 0 }).1.active_jobs "a"
        = some { status := "initializing", selected_categories := ["Electronics"],
                 created_at := 0, results := [], error := none } :=
  ⟨(submit_validation_spec [] "a" { active_jobs := [], clock := 0 }).2.1 (Or.inl rfl),
   ((submit_validation_spec ["Electronics"] "a" { active_jobs := [], clock := 0 }).2.2
      (by decide) (by decide)).2⟩

/-- C10: category validation depends only on the count of selected
categories: the handler validator gives the same answer on any two lists of
equal length and accepts exactly the lists of length 1 to 3; the pydantic
validator on `CategoryRequest` accepts exactly the same lists; and any
accepted list, including ones with duplicates, empty strings or names
outside the configured feeds, leads to a created job in initializing. -/
theorem validation_depends_only_on_count (cats cats2 : List String) (id : String) (s : Sys) :
    (cats.length = cats2.length →
        validate_categories_logic cats = validate_categories_logic cats2) ∧
    (validate_categories_logic cats = none ↔ 1 ≤ cats.length ∧ cats.length ≤ 3) ∧
    (CategoryRequest.validate_categories cats = Except.ok cats
        ↔ 1 ≤ cats.length ∧ cats.length ≤ 3) ∧
    (1 ≤ cats.length → cats.length ≤ 3 →
      findJob (start_deal_search cats id s).1.active_jobs id
          = some { status := "initializing", selected_categories := cats,
                   created_at := s.clock, results := [], error := none }) := by
  refine ⟨?_, ?_, ?_, ?_⟩
  · intro hlen
    unfold validate_categories_logic
    rw [hlen]
  · unfold validate_categories_logic
    by_cases h0 : cats.length = 0
    · simp [h0]
    · by_cases h3 : cats.length > 3
      · simp [h0, h3]
      · simp [h0, h3]
        omega
  · unfold CategoryRequest.validate_categories
    by_cases h0 : cats.length = 0
    · simp [h0]
    · by_cases h3 : cats.length > 3
      · simp [h0, h3]
      · simp [h0, h3]
        omega
  · intro hlo hhi
    have hvalid : validate_categories_logic cats = none := by
      unfold validate_categories_logic
      have h0 : ¬ cats.length = 0 := by omega
      have h3 : ¬ cats.length > 3 := by omega
      simp [h0, h3]
    rw [(start_deal_search_ok hvalid id s).1]
    exact findJob_setJob_self _ _ _

/-- Witness for C10: a selection consisting of two copies of the empty
string, which names no configured feed, passes both validators and creates
a job. -/
theorem validation_depends_only_on_count_witness :
    validate_categories_logic ["", ""] = none ∧
    CategoryRequest.validate_categories ["", ""] = Except.ok ["", ""] ∧
    findJob (start_deal_search ["", ""] "a" { active_jobs := [], clock := 0 }).1.active_jobs "a"
        = some { status := "initializing", selected_categories := ["", ""],
                 created_at := 0, results := [], error := none } :=
  ⟨(validation_depends_only_on_count ["", ""] [] "a"
      { active_jobs := [], clock := 0 }).2.1.mpr (by decide),
   (validation_depends_only_on_count ["", ""] [] "a"
      { active_jobs := [], clock := 0 }).2.2.1.mpr (by decide),
   (validation_depends_only_on_count ["", ""] [] "a"
      { active_jobs := [], clock := 0 }).2.2.2 (by decide) (by decide)⟩

/-- C1 counterexample: a submitted job whose backing work raises the
exception "boom" does end in status error, but the computed record has
`end_time = none`, refuting the part of the claim that says `endedAt` is
recorded on the job on the error path. -/
theorem worker_error_no_endtime_cex :
    ((findJob (run_deal_search_sync "j" (Except.error "boom")
        (start_deal_search ["Electronics"] "j"
          { active_jobs := [], clock := 0 }).1).active_jobs "j").map Job.status
      = some "error") ∧
    ((findJob (run_deal_search_sync "j" (Except.error "boom")
        (start_deal_search ["Electronics"] "j"
          { active_jobs := [], clock := 0 }).1).active_jobs "j").map Job.end_time
      = some none) := by
  constructor <;> rfl

/-- C1 (amended): for a submitted job whose backing work raises with
description m, the job transitions to status error, m is stored as the job
error so a subsequent Get answers status error with error_message m
(non-empty whenever m is) and results = []; however no `endedAt` is
recorded: `end_time` stays `none` on the error path. -/
theorem worker_error_spec (s : Sys) (cats : List String) (id : String) (m : String)
    (hvalid : validate_categories_logic cats = none) :
    ∃ j : Job,
      findJob (run_deal_search_sync id (Except.error m)
          (start_deal_search cats id s).1).active_jobs id = some j ∧
      j.status = "error" ∧
      j.error = some m ∧
      j.results = [] ∧
      j.start_time = some (s.clock + 1) ∧
      j.end_time = none ∧
      get_search_results (run_deal_search_sync id (Except.error m)
          (start_deal_search cats id s).1) id
        = some { status := "error", results := [], error_message := some m,
                 total_count := 0 } := by
  rw [(start_deal_search_ok hvalid id s).1]
  have hfind : findJob (setJob s.active_jobs id
      { status := "initializing", selected_categories := cats,
        created_at := s.clock, results := [], error := none }) id
      = some { status := "initializing", selected_categories := cats,
               created_at := s.clock, results := [], error := none } :=
    findJob_setJob_self _ _ _
  have hrun := run_deal_search_sync_error hfind m (s.clock + 1)
  refine ⟨_, hrun, rfl, rfl, rfl, rfl, rfl, ?_⟩
  unfold get_search_results
  rw [hrun]
  rfl

/-- Witness for C1 (amended) at a concrete one-job system raising "boom". -/
theorem worker_error_spec_witness :
    ∃ j : Job,
      findJob (run_deal_search_sync "j" (Except.error "boom")
          (start_deal_search ["Electronics"] "j"
            { active_jobs := [], clock := 0 }).1).active_jobs "j" = some j ∧
      j.status = "error" ∧
      j.error = some "boom" ∧
      j.results = [] ∧
      j.start_time = some (0 + 1) ∧
      j.end_time = none ∧
      get_search_results (run_deal_search_sync "j" (Except.error "boom")
          (start_deal_search ["Electronics"] "j"
            { active_jobs := [], clock := 0 }).1) "j"
        = some { status := "error", results := [], error_message := some "boom",
                 total_count := 0 } :=
  worker_error_spec { active_jobs := [], clock := 0 } ["Electronics"] "j" "boom" (by decide)

/-- C7: for a submitted job whose backing work returns the opportunity list
opps, the job transitions to completed, the stored results are exactly one
row per opportunity (`table_for opps`, whose length equals the number of
opportunities), the stored count equals the length of the stored results,
the timestamps satisfy createdAt ≤ startedAt ≤ endedAt, and a subsequent
Get answers completed with that table and count. -/
theorem worker_success_spec (s : Sys) (cats : List String) (id : String)
    (opps : List Opportunity)
    (hvalid : validate_categories_logic cats = none) :
    ∃ j : Job,
      findJob (run_deal_search_sync id (Except.ok opps)
          (start_deal_search cats id s).1).active_jobs id = some j ∧
      j.status = "completed" ∧
      j.results = table_for opps ∧
      j.results.length = opps.length ∧
      j.total_count = some j.results.length ∧
      j.created_at = s.clock ∧
      j.start_time = some (s.clock + 1) ∧
      j.end_time = some (s.clock + 2) ∧
      j.created_at ≤ s.clock + 1 ∧
      s.clock + 1 ≤ s.clock + 2 ∧
      get_search_results (run_deal_search_sync id (Except.ok opps)
          (start_deal_search cats id s).1) id
        = some { status := "completed", results := table_for opps,
                 error_message := none, total_count := opps.length } := by
  rw [(start_deal_search_ok hvalid id s).1]
  have hfind : findJob (setJob s.active_jobs id
      { status := "initializing", selected_categories := cats,
        created_at := s.clock, results := [], error := none }) id
      = some { status := "initializing", selected_categories := cats,
               created_at := s.clock, results := [], error := none } :=
    findJob_setJob_self _ _ _
  have hrun := run_deal_search_sync_ok hfind opps (s.clock + 1)
  refine ⟨_, hrun, rfl, rfl, by simp [table_for], by simp [table_for], rfl, rfl, rfl,
    Nat.le_succ _, by omega, ?_⟩
  unfold get_search_results
  rw [hrun]
  rfl

/-- Witness for C7 at a concrete one-job system returning one opportunity. -/
theorem worker_success_spec_witness :
    ∃ j : Job,
      findJob (run_deal_search_sync "j"
          (Except.ok [{ deal := { product_description := "d", price := 100, url := "u" },
                        estimate := 250, discount := 150 }])
          (start_deal_search ["Electronics"] "j"
            { active_jobs := [], clock := 0 }).1).active_jobs "j" = some j ∧
      j.status = "completed" ∧
      j.results = table_for [{ deal := { product_description := "d", price := 100, url := "u" },
                               estimate := 250, discount := 150 }] ∧
      j.results.length
        = ([{ deal := { product_description := "d", price := 100, url := "u" },
              estimate := 250, discount := 150 }] : List Opportunity).length ∧
      j.total_count = some j.results.length ∧
      j.created_at = 0 ∧
      j.start_time = some (0 + 1) ∧
      j.end_time = some (0 + 2) ∧
      j.created_at ≤ 0 + 1 ∧
      0 + 1 ≤ 0 + 2 ∧
      get_search_results (run_deal_search_sync "j"
          (Except.ok [{ deal := { product_description := "d", price := 100, url := "u" },
                        estimate := 250, discount := 150 }])
          (start_deal_search ["Electronics"] "j"
            { active_jobs := [], clock := 0 }).1) "j"
        = some { status := "completed",
                 results := table_for [{ deal := { product_description := "d", price := 100,
                                                   url := "u" },
                                         estimate := 250, discount := 150 }],
                 error_message := none,
                 total_count := ([{ deal := { product_description := "d", price := 100,
                                              url := "u" },
                                    estimate := 250, discount := 150 }] :
                                   List Opportunity).length } :=
  worker_success_spec { active_jobs := [], clock := 0 } ["Electronics"] "j" _ (by decide)

/-- C2 counterexample: a job cancelled while running is overwritten to
completed when its worker thread finishes, so a subsequent operation does
change the status of a job whose status was terminal (`cancelled`),
refuting the claim that only ClearTerminal can affect a terminal job. -/
theorem terminal_cancelled_overwritten_cex :
    ((findJob (applyOp (Op.cancel "j") (applyOp (Op.workerStartOp "j")
        (applyOp (Op.submit "j" ["Electronics"])
          { active_jobs := [], clock := 0 }))).active_jobs "j").map Job.status
      = some "cancelled") ∧
    ((findJob (applyOp (Op.workerFinishOp "j" (Except.ok [])) (applyOp (Op.cancel "j")
        (applyOp (Op.workerStartOp "j") (applyOp (Op.submit "j" ["Electronics"])
          { active_jobs := [], clock := 0 })))).active_jobs "j").map Job.status
      = some "completed") := by
  constructor <;> rfl

/-- C2 (amended): once a job status is terminal, no operation on the
registry changes that record except the finishing (or restarting) of the
job's own worker thread, which can overwrite a cancelled status because
cancellation is advisory, and except a submit reusing the id, which never
happens because ids are fresh UUIDs; apart from those, every operation
leaves the record exactly as it is, and the only way it leaves a terminal
state is being deleted entirely by the bulk clear. -/
theorem terminal_status_stable (s : Sys) (op : Op) (id : String) (j : Job)
    (hj : findJob s.active_jobs id = some j)
    (hterm : terminalStatuses.contains j.status = true)
    (hsub : ∀ cats, op ≠ Op.submit id cats)
    (hws : op ≠ Op.workerStartOp id)
    (hwf : ∀ out, op ≠ Op.workerFinishOp id out) :
    (findJob (applyOp op s).active_jobs id = some j ∧ op ≠ Op.clear) ∨
    (findJob (applyOp op s).active_jobs id = none ∧ op = Op.clear) := by
  cases op with
  | submit id2 cats =>
      have hne : id2 ≠ id := fun he => hsub cats (by rw [he])
      left
      refine ⟨?_, fun hcon => by cases hcon⟩
      unfold applyOp
      dsimp only
      unfold start_deal_search tick
      cases hv : validate_categories_logic cats with
      | some msg => exact hj
      | none =>
          dsimp only
          rw [findJob_setJob_ne _ _ hne]
          exact hj
  | workerStartOp id2 =>
      have hne : id2 ≠ id := fun he => hws (by rw [he])
      left
      refine ⟨?_, fun hcon => by cases hcon⟩
      unfold applyOp workerStart tick
      dsimp only
      rw [findJob_updateJob_ne _ _ hne]
      exact hj
  | workerFinishOp id2 out =>
      have hne : id2 ≠ id := fun he => hwf out (by rw [he])
      left
      refine ⟨?_, fun hcon => by cases hcon⟩
      unfold applyOp workerFinish
      cases out with
      | ok opps =>
          dsimp only
          rw [findJob_updateJob_ne _ _ hne]
          exact hj
      | error e =>
          dsimp only
          rw [findJob_updateJob_ne _ _ hne]
          exact hj
  | cancel id2 =>
      left
      refine ⟨?_, fun hcon => by cases hcon⟩
      unfold applyOp
      dsimp only
      unfold cancel_job
      by_cases hid : id2 = id
      · subst hid
        rw [hj]
        dsimp only
        have hnr : j.status ≠ "running" := by
          intro he
          rw [he] at hterm
          exact absurd hterm (by decide)
        rw [if_neg hnr]
        exact hj
      · cases hf : findJob s.active_jobs id2 with
        | none => exact hj
        | some j2 =>
            dsimp only
            by_cases hr : j2.status = "running"
            · rw [if_pos hr]
              dsimp only
              rw [findJob_updateJob_ne _ _ hid]
              exact hj
            · rw [if_neg hr]
              exact hj
  | clear =>
      right
      refine ⟨?_, rfl⟩
      have hmem := key_mem_terminal_ids hj hterm
      unfold applyOp clear_all_results
      dsimp only
      rw [foldl_delete_eq_filter]
      exact findJob_filter_key_removed hmem

/-- Witness for C2 (amended): an advisory cancel aimed at an already
completed job leaves its record exactly as it is. -/
theorem terminal_status_stable_witness :
    (findJob (applyOp (Op.cancel "a")
        { active_jobs := [("a", sampleCompletedJob)], clock := 3 }).active_jobs "a"
        = some sampleCompletedJob ∧ Op.cancel "a" ≠ Op.clear) ∨
    (findJob (applyOp (Op.cancel "a")
        { active_jobs := [("a", sampleCompletedJob)], clock := 3 }).active_jobs "a"
        = none ∧ Op.cancel "a" = Op.clear) :=
  terminal_status_stable { active_jobs := [("a", sampleCompletedJob)], clock := 3 }
    (Op.cancel "a") "a" sampleCompletedJob (by decide) (by decide)
    (fun cats hcon => by cases hcon) (fun hcon => by cases hcon)
    (fun out hcon => by cases hcon)

/-- C3: broadcasting to attached connections of which exactly one, k, is
connected but fails its send delivers the message to every other
connection (the delivered list is precisely the others, in iteration
order) and detaches k from the active set within the same broadcast call,
while every other connection stays attached. -/
theorem broadcast_partial_failure (conns : List Conn) (k : Conn)
    (hk : k ∈ conns) (hkconn : k.client_state_connected = true)
    (hkfail : k.send_ok = false)
    (hothers : ∀ c ∈ conns, c ≠ k → c.client_state_connected = true ∧ c.send_ok = true) :
    (broadcast conns).delivered = conns.filter (fun c => c != k) ∧
    k ∉ (broadcast conns).active ∧
    (∀ c ∈ conns, c ≠ k → c ∈ (broadcast conns).active) := by
  refine ⟨?_, ?_, ?_⟩
  · rw [broadcast_delivered_eq]
    apply List.filter_congr
    intro c hc
    by_cases hck : c = k
    · subst hck
      simp [hkfail]
    · obtain ⟨h1, h2⟩ := hothers c hc hck
      simp [h1, h2, hck]
  · rw [broadcast_active_eq]
    intro hmem
    have h2 := (List.mem_filter.mp hmem).2
    have hkdisc : k ∈ conns.filter (fun d => !(d.client_state_connected && d.send_ok)) :=
      List.mem_filter.mpr ⟨hk, by rw [hkconn, hkfail]; rfl⟩
    rw [mem_iff_contains.mpr hkdisc] at h2
    exact Bool.noConfusion h2
  · intro c hc hck
    rw [broadcast_active_eq]
    apply List.mem_filter.mpr
    refine ⟨hc, ?_⟩
    obtain ⟨h1, h2⟩ := hothers c hc hck
    have hnotdisc : c ∉ conns.filter (fun d => !(d.client_state_connected && d.send_ok)) := by
      intro hcd
      have h3 := (List.mem_filter.mp hcd).2
      rw [h1, h2] at h3
      simp at h3
    have hcf : (conns.filter (fun d => !(d.client_state_connected && d.send_ok))).contains c
        = false :=
      Bool.eq_false_iff.mpr (fun hct => hnotdisc (mem_iff_contains.mp hct))
    rw [hcf]
    rfl

/-- Witness for C3: of three connected connections the middle one fails;
the other two receive the message and the failed one is detached. -/
theorem broadcast_partial_failure_witness :
    (broadcast [⟨1, true, true⟩, ⟨2, true, false⟩, ⟨3, true, true⟩]).delivered
        = ([⟨1, true, true⟩, ⟨2, true, false⟩, ⟨3, true, true⟩] : List Conn).filter
            (fun c => c != ⟨2, true, false⟩) ∧
    (⟨2, true, false⟩ : Conn)
        ∉ (broadcast [⟨1, true, true⟩, ⟨2, true, false⟩, ⟨3, true, true⟩]).active :=
  ⟨(broadcast_partial_failure [⟨1, true, true⟩, ⟨2, true, false⟩, ⟨3, true, true⟩]
      ⟨2, true, false⟩ (by decide) rfl rfl (by decide)).1,
   (broadcast_partial_failure [⟨1, true, true⟩, ⟨2, true, false⟩, ⟨3, true, true⟩]
      ⟨2, true, false⟩ (by decide) rfl rfl (by decide)).2.1⟩

/-- C9: during a broadcast, every connection whose client state is not
CONNECTED is detached without any send attempted on it, and sends are only
ever attempted on (and the message only delivered to) connections in the
CONNECTED state. -/
theorem broadcast_connected_only (conns : List Conn) :
    (∀ c ∈ conns, c.client_state_connected = false →
        c ∉ (broadcast conns).attempted ∧ c ∉ (broadcast conns).active) ∧
    (∀ c ∈ (broadcast conns).attempted, c ∈ conns ∧ c.client_state_connected = true) ∧
    (∀ c ∈ (broadcast conns).delivered, c ∈ conns ∧ c.client_state_connected = true) := by
  refine ⟨?_, ?_, ?_⟩
  · intro c hc hdis
    constructor
    · rw [broadcast_attempted_eq]
      intro hmem
      have h2 := (List.mem_filter.mp hmem).2
      rw [hdis] at h2
      cases h2
    · rw [broadcast_active_eq]
      intro hmem
      have h2 := (List.mem_filter.mp hmem).2
      have hcdisc : c ∈ conns.filter (fun d => !(d.client_state_connected && d.send_ok)) :=
        List.mem_filter.mpr ⟨hc, by rw [hdis]; rfl⟩
      rw [mem_iff_contains.mpr hcdisc] at h2
      exact Bool.noConfusion h2
  · intro c hmem
    rw [broadcast_attempted_eq] at hmem
    exact ⟨(List.mem_filter.mp hmem).1, (List.mem_filter.mp hmem).2⟩
  · intro c hmem
    rw [broadcast_delivered_eq] at hmem
    have h2 := (List.mem_filter.mp hmem).2
    rw [Bool.and_eq_true] at h2
    exact ⟨(List.mem_filter.mp hmem).1, h2.1⟩

/-- Witness for C9: a connection whose client state is not CONNECTED gets
no send attempt and is detached. -/
theorem broadcast_connected_only_witness :
    (⟨1, false, true⟩ : Conn)
        ∉ (broadcast [⟨1, false, true⟩, ⟨2, true, true⟩]).attempted ∧
    (⟨1, false, true⟩ : Conn)
        ∉ (broadcast [⟨1, false, true⟩, ⟨2, true, true⟩]).active :=
  (broadcast_connected_only [⟨1, false, true⟩, ⟨2, true, true⟩]).1
    ⟨1, false, true⟩ (by decide) rfl

/-- C8: over any interleaving of producer enqueues and consumer iterations
of the bridge, the sequence of messages handed to broadcast so far is
exactly the global enqueue sequence minus the still-pending tail of the
FIFO queue: events are broadcast in precisely the order they were enqueued,
with no reordering and no priority. -/
theorem bridge_fifo_order (ops : List BridgeOp) :
    (runBridge ops).enqueued
        = (runBridge ops).broadcasted ++ (runBridge ops).log_queue ∧
    List.IsPrefix (runBridge ops).broadcasted (runBridge ops).enqueued := by
  have h := bridge_inv_foldl ops bridgeInit rfl
  exact ⟨h, ⟨(runBridge ops).log_queue, h.symm⟩⟩

end DealSense
